import Mathlib

/-!
Verification of the obot-telegram relay (src/main.go) against its
natural-language specification.

The Go program is shallowly embedded: its data structures become Lean
structures, its effectful collaborators (HTTP fetch, workspace write,
Telegram API, JSON body parsing) become explicit function parameters or
inductive result values, and the channel-based message queue becomes a
`List Message` drained front-first (FIFO: the head is the oldest record,
matching channel receive order).
-/

namespace ObotTelegram

/-- Sender identity, mirroring the fields of `telegram.User` that the
program reads (`user.ID`, `user.UserName`, and the display fields used
when formatting `Message.User`). -/
structure TgUser where
  id : Int
  firstName : String := ""
  lastName : String := ""
  userName : String := ""
deriving Repr, DecidableEq

/-- The allow-lists built at startup from `TELEGRAM_BOT_ALLOWED_USERIDS`
and `TELEGRAM_BOT_ALLOWED_USERNAMES` (Go: the package-level maps
`allowedUserIDs` and `allowedUserNames`). Go sets are modelled as lists
with membership via `contains`. -/
structure AuthConfig where
  allowedUserIDs : List Int
  allowedUserNames : List String
deriving Repr

/-- Embedding of `isAuthorized` (main.go lines 32-45): nil user is
rejected; otherwise membership of the numeric ID in `allowedUserIDs` or
of the username in `allowedUserNames` grants access. -/
def isAuthorized (cfg : AuthConfig) (user : Option TgUser) : Bool :=
  match user with
  | none => false
  | some u =>
    if cfg.allowedUserIDs.contains u.id then true
    else if cfg.allowedUserNames.contains u.userName then true
    else false

/-- Embedding of the `Message` struct (main.go lines 47-55), with the
same field order and JSON tags. Empty string stands for the Go zero
value of each field. -/
structure Message where
  user : String := ""
  chatID : String := ""
  msgID : String := ""
  text : String := ""
  voiceURL : String := ""
  imageURL : String := ""
  fileExt : String := ""
deriving Repr, DecidableEq

/-- One hex digit, lower case, as used by encoding/json for control
characters. -/
def hexDigit (n : Nat) : String :=
  if n = 0 then "0" else if n = 1 then "1" else if n = 2 then "2"
  else if n = 3 then "3" else if n = 4 then "4" else if n = 5 then "5"
  else if n = 6 then "6" else if n = 7 then "7" else if n = 8 then "8"
  else if n = 9 then "9" else if n = 10 then "a" else if n = 11 then "b"
  else if n = 12 then "c" else if n = 13 then "d" else if n = 14 then "e"
  else "f"

/-- Escaping of one character by Go encoding/json with the default
(HTML-escaping) encoder: backslash, quote, the HTML characters
angle-bracket-open, angle-bracket-close and ampersand, and control
characters. -/
def jsonEscapeChar (c : Char) : String :=
  if c = '\\' then "\\\\"
  else if c = '"' then "\\\""
  else if c = '<' then "\\u003c"
  else if c = '>' then "\\u003e"
  else if c = '&' then "\\u0026"
  else if c = '\n' then "\\n"
  else if c = '\r' then "\\r"
  else if c = '\t' then "\\t"
  else if c.toNat < 32 then "\\u00" ++ hexDigit (c.toNat / 16) ++ hexDigit (c.toNat % 16)
  else String.singleton c

/-- A Go JSON string literal for `s`. -/
def jsonString (s : String) : String :=
  "\"" ++ String.join (s.data.map jsonEscapeChar) ++ "\""

/-- Comma-separated join of serialized JSON object members. -/
def joinComma : List String → String
  | [] => ""
  | [x] => x
  | x :: y :: ys => x ++ "," ++ joinComma (y :: ys)

/-- The serialized members of a `Message` JSON object, in struct order:
`chatId` and `text` always present, the rest `omitempty`. -/
def jsonFields (m : Message) : List String :=
  (if m.user = "" then [] else ["\"user\":" ++ jsonString m.user]) ++
  ["\"chatId\":" ++ jsonString m.chatID] ++
  (if m.msgID = "" then [] else ["\"msgId\":" ++ jsonString m.msgID]) ++
  ["\"text\":" ++ jsonString m.text] ++
  (if m.voiceURL = "" then [] else ["\"voiceURL\":" ++ jsonString m.voiceURL]) ++
  (if m.imageURL = "" then [] else ["\"imageURL\":" ++ jsonString m.imageURL]) ++
  (if m.fileExt = "" then [] else ["\"fileExt\":" ++ jsonString m.fileExt])

/-- Embedding of `json.Marshal` on a `Message` value. -/
def jsonMarshalMessage (m : Message) : String :=
  "\x7b" ++ joinComma (jsonFields m) ++ "\x7d"

/-- Embedding of `fmt.Sprintf` with verb `%s` applied to a `Message`
value (used inside the annotation in the poll handler): Go prints a
struct without a Stringer as the fields in order, space separated,
inside braces. -/
def goFmtMessage (m : Message) : String :=
  "\x7b" ++ m.user ++ " " ++ m.chatID ++ " " ++ m.msgID ++ " " ++ m.text ++
  " " ++ m.voiceURL ++ " " ++ m.imageURL ++ " " ++ m.fileExt ++ "\x7d"

/-- Result of `http.Get`: either a transport/connection error, or a
response carrying a status code and the outcome of `io.ReadAll` on its
body. -/
inductive FetchResult where
  | connError (e : String)
  | response (statusCode : Nat) (body : Except String (List Nat))
deriving Repr

/-- Embedding of `uploadToWs` (main.go lines 57-78). Effects are passed
in: `fetch` is `http.Get` composed with `io.ReadAll`, `writeFile` is
`gClient.WriteFileInWorkspace`, `freshID` is the `uuid.NewString()`
value. Note that the Go code never inspects `resp.StatusCode`. -/
def uploadToWs (fetch : String → FetchResult)
    (writeFile : String → List Nat → Except String Unit)
    (freshID : String) (url : String) (ext : String) : Except String String :=
  let path := freshID ++ ext
  match fetch url with
  | .connError e => .error e
  | .response _status bodyResult =>
    match bodyResult with
    | .error e => .error e
    | .ok b =>
      match writeFile path b with
      | .error e => .error e
      | .ok _ => .ok path

/-- The annotation written into `msg.Text` for a voice attachment
(main.go line 128), with `orig` the message value before the
assignment. -/
def voiceInfoText (voiceID : String) (orig : Message) : String :=
  "<INFO>This message contains a voice file which you can find in the workspace at "
  ++ voiceID ++ "<INFO>\n<MESSAGE>" ++ goFmtMessage orig ++ "</MESSAGE>"

/-- The annotation written into `msg.Text` for an image attachment
(main.go line 136). -/
def imageInfoText (imageID : String) (orig : Message) : String :=
  "<INFO>This message contains an image file which you can find in the workspace at "
  ++ imageID ++ "<INFO>\n<MESSAGE>" ++ goFmtMessage orig ++ "</MESSAGE>"

/-- Processing of one dequeued message by the `/message` handler
(main.go lines 121-137): materialize the voice attachment if present,
else the image attachment if present, rewriting `text`; on upload
failure return the `http.Error` text and status 500. The second
component records the upload calls made (url, extension). -/
def processMessage (upload : String → String → Except String String)
    (msg : Message) : Except (String × Nat) Message × List (String × String) :=
  if msg.voiceURL ≠ "" then
    match upload msg.voiceURL msg.fileExt with
    | .error _ => (.error ("Failed to upload voice file", 500), [(msg.voiceURL, msg.fileExt)])
    | .ok voiceID =>
      (.ok { msg with text := voiceInfoText voiceID msg }, [(msg.voiceURL, msg.fileExt)])
  else if msg.imageURL ≠ "" then
    match upload msg.imageURL msg.fileExt with
    | .error _ => (.error ("Failed to upload image file", 500), [(msg.imageURL, msg.fileExt)])
    | .ok imageID =>
      (.ok { msg with text := imageInfoText imageID msg }, [(msg.imageURL, msg.fileExt)])
  else (.ok msg, [])

/-- The observable outcome of one `GET /message` request: the sequence
of `w.Write` calls, the HTTP status (200 unless `http.Error` ran, which
sets 500), the successfully processed records in the order written, and
the records still in the queue when the handler returned. -/
structure PollResult where
  writes : List String
  status : Nat
  records : List Message
  remaining : List Message
deriving Repr, DecidableEq

/-- The body text written by the default branch of the select
(main.go line 148). -/
def noMessagesText : String := "No messages\n"

/-- Embedding of the `/message` handler loop (main.go lines 115-152).
The queue is the list of currently buffered records, head oldest; the
loop receives one record at a time, processes and writes it, and takes
the default branch (writing `noMessagesText` and returning) once the
queue is empty. `json.Marshal` cannot fail on this struct, so its error
branch is dead. -/
def messageHandler (upload : String → String → Except String String) :
    List Message → PollResult
  | [] => { writes := [noMessagesText], status := 200, records := [], remaining := [] }
  | msg :: rest =>
    match processMessage upload msg with
    | (.error (e, code), _) =>
      { writes := [e ++ "\n"], status := code, records := [], remaining := rest }
    | (.ok m, _) =>
      let r := messageHandler upload rest
      { writes := jsonMarshalMessage m :: r.writes, status := r.status,
        records := m :: r.records, remaining := r.remaining }

/-- Decimal digit value, as consumed by strconv. -/
def digitVal (c : Char) : Option Nat :=
  if '0' ≤ c ∧ c ≤ '9' then some (c.toNat - '0'.toNat) else none

/-- Parse a non-empty run of decimal digits to a Nat; `none` on an empty
run or a non-digit character. -/
def parseNatDigits (cs : List Char) : Option Nat :=
  if cs.isEmpty then none
  else cs.foldl (fun acc c =>
    match acc, digitVal c with
    | some n, some d => some (n * 10 + d)
    | _, _ => none) (some 0)

/-- Embedding of `strconv.ParseInt(s, 10, 64)` (also `strconv.Atoi` on a
64-bit platform): optional sign, then decimal digits, range checked to
signed 64-bit. `none` is the error case. -/
def goParseInt64 (s : String) : Option Int :=
  let split : Bool × List Char :=
    match s.data with
    | '-' :: r => (true, r)
    | '+' :: r => (false, r)
    | r => (false, r)
  match parseNatDigits split.2 with
  | none => none
  | some n =>
    let v : Int := if split.1 then -(n : Int) else (n : Int)
    if -(2 ^ 63) ≤ v ∧ v ≤ 2 ^ 63 - 1 then some v else none

/-- The outbound Telegram message built by the `/send` handler:
`telegram.NewMessage(chatID, req.Text)` with `ReplyToMessageID` left at
its Go zero value 0 unless assigned. -/
structure SentMsg where
  chatID : Int
  text : String
  replyToMessageID : Int := 0
deriving Repr, DecidableEq

/-- Embedding of the `/send` handler (main.go lines 154-193).
`parsedBody` is the combined outcome of `io.ReadAll` and
`json.Unmarshal` on the request body (`none` when either fails);
`botSend` is `bot.Send`. The result is the HTTP status (200 when the Go
handler falls off the end without writing) and the list of outbound
send calls attempted, in order. -/
def sendHandler (botSend : SentMsg → Except String Unit)
    (parsedBody : Option Message) : Nat × List SentMsg :=
  match parsedBody with
  | none => (400, [])
  | some req =>
    match goParseInt64 req.chatID with
    | none => (400, [])
    | some chatID =>
      let msg0 : SentMsg := { chatID := chatID, text := req.text }
      if req.msgID ≠ "" then
        match goParseInt64 req.msgID with
        | none => (400, [])
        | some msgID =>
          let msg := { msg0 with replyToMessageID := msgID }
          match botSend msg with
          | .error _ => (500, [msg])
          | .ok _ => (200, [msg])
      else
        match botSend msg0 with
        | .error _ => (500, [msg0])
        | .ok _ => (200, [msg0])

/-- A file record returned by `bot.GetFile`. -/
structure TgFile where
  filePath : String
deriving Repr, DecidableEq

/-- Embedding of `telegram.File.Link(token)`:
`https://api.telegram.org/file/bot<token>/<FilePath>`. -/
def fileLink (token : String) (f : TgFile) : String :=
  "https://api.telegram.org/file/bot" ++ token ++ "/" ++ f.filePath

/-- Helper for `filepath.Ext`: walk the path reversed; `acc` holds the
characters already passed, in original order. -/
def filepathExtAux : List Char → List Char → String
  | [], _ => ""
  | c :: rest, acc =>
    if c = '/' then ""
    else if c = '.' then String.mk (c :: acc)
    else filepathExtAux rest (c :: acc)

/-- Embedding of Go `path/filepath.Ext`: the suffix starting at the
final dot in the final slash-separated element, empty if there is no
dot. -/
def filepathExt (path : String) : String :=
  filepathExtAux path.data.reverse []

/-- A voice payload on an inbound Telegram message. -/
structure TgVoice where
  fileID : String
deriving Repr, DecidableEq

/-- One photo size variant on an inbound Telegram message. -/
structure TgPhotoSize where
  fileID : String
deriving Repr, DecidableEq

/-- The chat an inbound message belongs to. -/
structure TgChat where
  id : Int
deriving Repr, DecidableEq

/-- The fields of `telegram.Message` read by the listener loop. `photo`
models the Go slice `[]PhotoSize`: `none` is the nil slice. -/
structure TgInboundMessage where
  chat : TgChat
  messageID : Int
  text : String
  voice : Option TgVoice := none
  photo : Option (List TgPhotoSize) := none
deriving Repr, DecidableEq

/-- The parts of a `telegram.Update` the listener reads: the message
payload (skip when absent) and the sender as returned by
`update.SentFrom()`. -/
structure TgUpdate where
  message : Option TgInboundMessage
  sentFrom : Option TgUser
deriving Repr, DecidableEq

/-- Outcome of the listener loop body for one update
(main.go lines 216-261). -/
inductive ListenerOutcome where
  | skipNoMessage
  | skipUnauthorized
  | skipGetFileError (e : String)
  | enqueue (m : Message)
deriving Repr, DecidableEq

/-- The photo step of the listener (main.go lines 247-257): when the
photo slice is non-nil, resolve the first variant and store its link
and extension (overwriting `fileExt`), then enqueue. An empty non-nil
slice would panic in Go (`Photo[0]`); the platform never sends one, and
it is modelled as no photo. -/
def listenerPhotoStep (token : String)
    (getFile : String → Except String TgFile)
    (msg : TgInboundMessage) (m : Message) : ListenerOutcome :=
  match msg.photo with
  | some (p :: _) =>
    match getFile p.fileID with
    | .error e => .skipGetFileError e
    | .ok f =>
      .enqueue { m with imageURL := fileLink token f, fileExt := filepathExt f.filePath }
  | some [] => .enqueue m
  | none => .enqueue m

/-- Embedding of one iteration of the listener loop
(main.go lines 216-261): skip updates with no message, drop
unauthorized senders, build the record from chat/message IDs, text and
the formatted sender, then resolve voice and photo attachments via
`getFile` and enqueue. `getFile` failure drops the event. -/
def listenerStep (cfg : AuthConfig) (token : String)
    (getFile : String → Except String TgFile)
    (update : TgUpdate) : ListenerOutcome :=
  match update.message with
  | none => .skipNoMessage
  | some msg =>
    if !isAuthorized cfg update.sentFrom then .skipUnauthorized
    else
      match update.sentFrom with
      | none => .skipUnauthorized
      | some user =>
        let m0 : Message :=
          { chatID := toString msg.chat.id,
            msgID := toString msg.messageID,
            text := msg.text,
            user := user.firstName ++ " " ++ user.lastName ++ " (" ++ user.userName ++ ")" }
        match msg.voice with
        | some v =>
          match getFile v.fileID with
          | .error e => .skipGetFileError e
          | .ok f =>
            listenerPhotoStep token getFile msg
              { m0 with voiceURL := fileLink token f, fileExt := filepathExt f.filePath }
        | none => listenerPhotoStep token getFile msg m0

/-! ## Concrete fixtures used by witnesses and counterexamples -/

/-- An upload regime in which every materialization succeeds. -/
def uploadOk : String → String → Except String String :=
  fun _ ext => .ok ("id-" ++ ext)

/-- An upload regime in which every materialization fails. -/
def uploadFail : String → String → Except String String :=
  fun _ _ => .error "boom"

/-- A plain text record. -/
def mA : Message := { chatID := "1", text := "hello" }

/-- A second plain text record. -/
def mB : Message := { chatID := "2", text := "world" }

/-- A record carrying a voice attachment locator. -/
def mV : Message :=
  { chatID := "3", text := "orig", voiceURL := "http://files/v.oga", fileExt := ".oga" }

/-- A record carrying an image attachment locator. -/
def mI : Message :=
  { chatID := "4", text := "pic", imageURL := "http://files/p.jpg", fileExt := ".jpg" }

/-! ## Helper lemmas -/

/-- A record with neither attachment locator passes through
`processMessage` unchanged, with no upload call. -/
theorem processMessage_plain (upload : String → String → Except String String)
    (m : Message) (h1 : m.voiceURL = "") (h2 : m.imageURL = "") :
    processMessage upload m = (.ok m, []) := by
  simp [processMessage, h1, h2]

/-- Draining a queue that starts with attachment-free records prepends
their serializations to the outcome on the rest of the queue. -/
theorem messageHandler_append_plain (upload : String → String → Except String String)
    (pre rest : List Message)
    (h : pre.all (fun m => m.voiceURL == "" && m.imageURL == "") = true) :
    messageHandler upload (pre ++ rest) =
      { writes := pre.map jsonMarshalMessage ++ (messageHandler upload rest).writes,
        status := (messageHandler upload rest).status,
        records := pre ++ (messageHandler upload rest).records,
        remaining := (messageHandler upload rest).remaining } := by
  induction pre with
  | nil => rfl
  | cons p ps ih =>
    rw [List.all_cons, Bool.and_eq_true, Bool.and_eq_true, beq_iff_eq, beq_iff_eq] at h
    obtain ⟨⟨hv, hi⟩, hrest⟩ := h
    simp [messageHandler, processMessage_plain upload p hv hi, ih hrest]

/-- Draining a queue of attachment-free records: every record is
written unchanged, in order, the queue is emptied, and the default
branch appends the indicator. -/
theorem messageHandler_plain (upload : String → String → Except String String)
    (msgs : List Message)
    (h : msgs.all (fun m => m.voiceURL == "" && m.imageURL == "") = true) :
    messageHandler upload msgs =
      { writes := msgs.map jsonMarshalMessage ++ [noMessagesText], status := 200,
        records := msgs, remaining := [] } := by
  have := messageHandler_append_plain upload msgs [] h
  simpa [messageHandler] using this

/-- A string append is non-empty whenever its left part is. -/
theorem append_ne_empty_of_left (s t : String) (h : s ≠ "") : s ++ t ≠ "" := by
  intro he
  apply h
  rw [String.ext_iff] at he ⊢
  rw [String.data_append] at he
  rcases List.append_eq_nil.mp he with ⟨h1, _⟩
  exact h1

/-- Every member string occurs inside the comma join of a list it
belongs to. -/
theorem data_infix_joinComma (s : String) (xs : List String) (h : s ∈ xs) :
    s.data <:+: (joinComma xs).data := by
  induction xs with
  | nil => cases h
  | cons x ys ih =>
    cases ys with
    | nil =>
      rcases List.mem_singleton.mp h with rfl
      exact ⟨[], [], by simp [joinComma]⟩
    | cons y ys' =>
      rcases List.mem_cons.mp h with rfl | hmem
      · exact ⟨[], ("," ++ joinComma (y :: ys')).data, by simp [joinComma, String.data_append]⟩
      · obtain ⟨s', t', heq⟩ := ih hmem
        refine ⟨(x ++ ",").data ++ s', t', ?_⟩
        simp only [joinComma, String.data_append, List.append_assoc]
        rw [← List.append_assoc s', heq]

/-- Every serialized member of a record occurs inside its marshalled
JSON object. -/
theorem data_infix_jsonMarshal (s : String) (m : Message) (h : s ∈ jsonFields m) :
    s.data <:+: (jsonMarshalMessage m).data := by
  obtain ⟨s', t', heq⟩ := data_infix_joinComma s (jsonFields m) h
  refine ⟨("\x7b" : String).data ++ s', t' ++ ("\x7d" : String).data, ?_⟩
  simp only [jsonMarshalMessage, String.data_append, ← heq]
  simp [List.append_assoc]

/-- A record with a non-empty voice locator serializes it as a
member. -/
theorem voiceField_mem_jsonFields (m : Message) (h : m.voiceURL ≠ "") :
    ("\"voiceURL\":" ++ jsonString m.voiceURL) ∈ jsonFields m := by
  simp [jsonFields, h]

/-- A record with a non-empty image locator serializes it as a
member. -/
theorem imageField_mem_jsonFields (m : Message) (h : m.imageURL ≠ "") :
    ("\"imageURL\":" ++ jsonString m.imageURL) ∈ jsonFields m := by
  simp [jsonFields, h]

/-- If every upload call succeeds, `processMessage` succeeds. -/
theorem processMessage_ok (upload : String → String → Except String String)
    (m : Message) (h : ∀ url ext, ∃ id, upload url ext = Except.ok id) :
    ∃ m', (processMessage upload m).fst = Except.ok m' := by
  by_cases hv : m.voiceURL = ""
  · by_cases hi : m.imageURL = ""
    · exact ⟨m, by simp [processMessage, hv, hi]⟩
    · obtain ⟨id, hid⟩ := h m.imageURL m.fileExt
      exact ⟨{ m with text := imageInfoText id m }, by simp [processMessage, hv, hi, hid]⟩
  · obtain ⟨id, hid⟩ := h m.voiceURL m.fileExt
    exact ⟨{ m with text := voiceInfoText id m }, by simp [processMessage, hv, hid]⟩

/-- Draining a queue whose leading records all process successfully
prepends those processed records to the outcome on the rest of the
queue. -/
theorem messageHandler_append_ok (upload : String → String → Except String String)
    (pre rest : List Message)
    (hpre : ∀ m ∈ pre, ∃ m', (processMessage upload m).fst = Except.ok m') :
    ∃ recs : List Message, recs.length = pre.length ∧
      messageHandler upload (pre ++ rest) =
        { writes := recs.map jsonMarshalMessage ++ (messageHandler upload rest).writes,
          status := (messageHandler upload rest).status,
          records := recs ++ (messageHandler upload rest).records,
          remaining := (messageHandler upload rest).remaining } := by
  induction pre with
  | nil => exact ⟨[], rfl, rfl⟩
  | cons p ps ih =>
    obtain ⟨m', hm'⟩ := hpre p (List.mem_cons_self p ps)
    obtain ⟨recs, hlen, heq⟩ := ih (fun m hm => hpre m (List.mem_cons_of_mem p hm))
    refine ⟨m' :: recs, by simp [hlen], ?_⟩
    rcases hp : processMessage upload p with ⟨fst, snd⟩
    rw [hp] at hm'
    simp only at hm'
    subst hm'
    simp [messageHandler, hp, heq]

/-- A failing `processMessage` always reports status 500 with one of
the two upload-failure texts. -/
theorem processMessage_error_shape (upload : String → String → Except String String)
    (m : Message) (ec : String × Nat)
    (h : (processMessage upload m).fst = Except.error ec) :
    ec.2 = 500 ∧
      (ec.1 = "Failed to upload voice file" ∨ ec.1 = "Failed to upload image file") := by
  by_cases hv : m.voiceURL = ""
  · by_cases hi : m.imageURL = ""
    · simp [processMessage, hv, hi] at h
    · rcases hu : upload m.imageURL m.fileExt with e | id <;>
        simp [processMessage, hv, hi, hu] at h
      subst h
      exact ⟨rfl, Or.inr rfl⟩
  · rcases hu : upload m.voiceURL m.fileExt with e | id <;>
      simp [processMessage, hv, hu] at h
    subst h
    exact ⟨rfl, Or.inl rfl⟩

/-! ## Claims -/

/-- C1: enqueueing a sequence of records and then performing a single
drain via the poll path yields exactly those records, in enqueue
(FIFO) order, leaving the queue empty; draining an empty queue takes
the non-blocking default branch immediately, yielding no records. -/
theorem poll_drain_fifo (upload : String → String → Except String String)
    (msgs : List Message)
    (h : msgs.all (fun m => m.voiceURL == "" && m.imageURL == "") = true) :
    (messageHandler upload msgs).records = msgs ∧
    (messageHandler upload msgs).remaining = [] ∧
    (messageHandler upload ([] : List Message)).records = [] ∧
    (messageHandler upload ([] : List Message)).writes = [noMessagesText] := by
  rw [messageHandler_plain upload msgs h]
  exact ⟨rfl, rfl, rfl, rfl⟩

/-- Witness for C1 at a concrete two-record queue. -/
theorem poll_drain_fifo_witness :
    (messageHandler uploadOk [mA, mB]).records = [mA, mB] ∧
    (messageHandler uploadOk [mA, mB]).remaining = [] ∧
    (messageHandler uploadOk ([] : List Message)).records = [] ∧
    (messageHandler uploadOk ([] : List Message)).writes = [noMessagesText] :=
  poll_drain_fifo uploadOk [mA, mB] (by decide)

/-- C2: `isAuthorized` rejects an absent sender and accepts exactly the
senders whose numeric ID is in the allowed-ID set or whose username is
in the allowed-name set. -/
theorem isAuthorized_spec (cfg : AuthConfig) (ou : Option TgUser) :
    isAuthorized cfg ou = true ↔
      ∃ u, ou = some u ∧
        (u.id ∈ cfg.allowedUserIDs ∨ u.userName ∈ cfg.allowedUserNames) := by
  cases ou with
  | none => simp [isAuthorized]
  | some u =>
    by_cases h1 : cfg.allowedUserIDs.contains u.id <;>
      by_cases h2 : cfg.allowedUserNames.contains u.userName <;>
        simp_all [isAuthorized, List.elem_iff]

/-- C3 counterexample: draining a non-empty queue also writes the
"No messages" indicator, as the final chunk of the body, so a
non-empty drain body does contain the indicator. -/
theorem poll_nonempty_body_has_indicator :
    (messageHandler uploadOk [mA]).writes =
      ["\x7b\"chatId\":\"1\",\"text\":\"hello\"\x7d", noMessagesText] ∧
    noMessagesText ∈ (messageHandler uploadOk [mA]).writes := by
  exact ⟨rfl, by decide⟩

/-- C3 amended: for every GET /message request under an upload regime
that succeeds on every call, the 200 body is one JSON object per
drained-and-annotated record, in order, followed by the literal
"No messages" indicator; on an empty queue the body is exactly the
indicator. -/
theorem poll_body_structure (upload : String → String → Except String String)
    (msgs : List Message)
    (h : ∀ url ext, ∃ id, upload url ext = Except.ok id) :
    (messageHandler upload msgs).writes =
      (messageHandler upload msgs).records.map jsonMarshalMessage ++ [noMessagesText] ∧
    (messageHandler upload msgs).status = 200 ∧
    (messageHandler upload ([] : List Message)).writes = [noMessagesText] := by
  refine ⟨?_, ?_, rfl⟩ <;>
  · induction msgs with
    | nil => rfl
    | cons m rest ih =>
      obtain ⟨m', hm'⟩ := processMessage_ok upload m h
      rcases hp : processMessage upload m with ⟨fst, snd⟩
      rw [hp] at hm'
      simp only at hm'
      subst hm'
      simp [messageHandler, hp, ih]

/-- Witness for C3 amended at a concrete one-record queue. -/
theorem poll_body_structure_witness :
    (messageHandler uploadOk [mV]).writes =
      (messageHandler uploadOk [mV]).records.map jsonMarshalMessage ++ [noMessagesText] ∧
    (messageHandler uploadOk [mV]).status = 200 ∧
    (messageHandler uploadOk ([] : List Message)).writes = [noMessagesText] :=
  poll_body_structure uploadOk [mV] (fun _ ext => ⟨"id-" ++ ext, rfl⟩)

set_option maxRecDepth 4000 in
/-- C4 counterexample: after successful materialization of a voice
record, the voice locator is still set on the record that is serialized
and written, and the serialized JSON retains it as a separate field. -/
theorem voice_locator_not_cleared :
    (messageHandler uploadOk [mV]).records.map Message.voiceURL = ["http://files/v.oga"] ∧
    ("http://files/v.oga" : String) ≠ "" ∧
    ("\"voiceURL\":\"http://files/v.oga\"").data <:+:
      ((messageHandler uploadOk [mV]).writes.headD "").data := by
  refine ⟨rfl, by decide, ?_⟩
  decide

/-- C4 amended: for every record drained and successfully materialized
through either the voice or the image branch, only `text` is rewritten
(folding the local identifier into the annotation); every other field,
in particular both remote locators, is retained unchanged, and a
non-empty locator appears as a separate member in the serialized JSON
that leaves the relay — the locators are not cleared. -/
theorem locator_retained (upload : String → String → Except String String)
    (m : Message) (id : String)
    (h : (m.voiceURL ≠ "" ∧ upload m.voiceURL m.fileExt = Except.ok id) ∨
         (m.voiceURL = "" ∧ m.imageURL ≠ "" ∧ upload m.imageURL m.fileExt = Except.ok id)) :
    ∃ m', (processMessage upload m).fst = Except.ok m' ∧
      m'.voiceURL = m.voiceURL ∧ m'.imageURL = m.imageURL ∧
      m'.user = m.user ∧ m'.chatID = m.chatID ∧ m'.msgID = m.msgID ∧
      m'.fileExt = m.fileExt ∧
      (m.voiceURL ≠ "" →
        ("\"voiceURL\":" ++ jsonString m.voiceURL).data <:+: (jsonMarshalMessage m').data) ∧
      (m.imageURL ≠ "" →
        ("\"imageURL\":" ++ jsonString m.imageURL).data <:+: (jsonMarshalMessage m').data) := by
  rcases h with ⟨hv, hup⟩ | ⟨hv, hi, hup⟩
  · refine ⟨{ m with text := voiceInfoText id m }, by simp [processMessage, hv, hup],
      rfl, rfl, rfl, rfl, rfl, rfl, ?_, ?_⟩
    · intro hv2
      exact data_infix_jsonMarshal _ _
        (voiceField_mem_jsonFields { m with text := voiceInfoText id m } hv2)
    · intro hi2
      exact data_infix_jsonMarshal _ _
        (imageField_mem_jsonFields { m with text := voiceInfoText id m } hi2)
  · refine ⟨{ m with text := imageInfoText id m }, by simp [processMessage, hv, hi, hup],
      rfl, rfl, rfl, rfl, rfl, rfl, ?_, ?_⟩
    · intro hv2
      exact absurd hv hv2
    · intro hi2
      exact data_infix_jsonMarshal _ _
        (imageField_mem_jsonFields { m with text := imageInfoText id m } hi2)

/-- Witness for C4 amended: one voice-branch record and one
image-branch record. -/
theorem locator_retained_witness :
    (∃ m', (processMessage uploadOk mV).fst = Except.ok m' ∧
      m'.voiceURL = mV.voiceURL ∧ m'.imageURL = mV.imageURL ∧
      m'.user = mV.user ∧ m'.chatID = mV.chatID ∧ m'.msgID = mV.msgID ∧
      m'.fileExt = mV.fileExt ∧
      (mV.voiceURL ≠ "" →
        ("\"voiceURL\":" ++ jsonString mV.voiceURL).data <:+: (jsonMarshalMessage m').data) ∧
      (mV.imageURL ≠ "" →
        ("\"imageURL\":" ++ jsonString mV.imageURL).data <:+: (jsonMarshalMessage m').data)) ∧
    (∃ m', (processMessage uploadOk mI).fst = Except.ok m' ∧
      m'.voiceURL = mI.voiceURL ∧ m'.imageURL = mI.imageURL ∧
      m'.user = mI.user ∧ m'.chatID = mI.chatID ∧ m'.msgID = mI.msgID ∧
      m'.fileExt = mI.fileExt ∧
      (mI.voiceURL ≠ "" →
        ("\"voiceURL\":" ++ jsonString mI.voiceURL).data <:+: (jsonMarshalMessage m').data) ∧
      (mI.imageURL ≠ "" →
        ("\"imageURL\":" ++ jsonString mI.imageURL).data <:+: (jsonMarshalMessage m').data)) :=
  ⟨locator_retained uploadOk mV "id-.oga" (Or.inl ⟨by decide, rfl⟩),
   locator_retained uploadOk mI "id-.jpg" (Or.inr ⟨rfl, by decide, rfl⟩)⟩

/-- C5 counterexample: `uploadToWs` never inspects the HTTP status
code, so a non-2xx (here 404) response whose body reads successfully
completes as success. -/
theorem uploadToWs_non2xx_succeeds :
    uploadToWs (fun _ => .response 404 (.ok [72, 105])) (fun _ _ => .ok ())
      "uuid-1" "http://x" ".oga" = .ok "uuid-1.oga" ∧
    ¬ (200 ≤ 404 ∧ 404 < 300) := by
  exact ⟨rfl, by decide⟩

/-- C5 amended: a connection error, a body-read error, and a
workspace-write failure are each reported to the caller as an error;
the HTTP status code, however, is never checked. -/
theorem uploadToWs_error_paths (e freshID url ext : String) (status : Nat)
    (wf : String → List Nat → Except String Unit) (body : List Nat) :
    uploadToWs (fun _ => .connError e) wf freshID url ext = .error e ∧
    uploadToWs (fun _ => .response status (.error e)) wf freshID url ext = .error e ∧
    uploadToWs (fun _ => .response status (.ok body)) (fun _ _ => .error e)
      freshID url ext = .error e := by
  exact ⟨rfl, rfl, rfl⟩

/-- C6: after successful materialization of a voice-only record, the
text is the informational voice marker with the local identifier,
followed by the original message serialized inside the message marker;
the original text occurs nested within that message marker. -/
theorem voice_annotation_structure (upload : String → String → Except String String)
    (m : Message) (id : String)
    (h1 : m.voiceURL ≠ "") (_h2 : m.imageURL = "")
    (h3 : upload m.voiceURL m.fileExt = Except.ok id) :
    ∃ m', (processMessage upload m).fst = Except.ok m' ∧
      m'.text =
        "<INFO>This message contains a voice file which you can find in the workspace at "
          ++ id ++ "<INFO>\n<MESSAGE>" ++ goFmtMessage m ++ "</MESSAGE>" ∧
      m.text.data <:+: ("<MESSAGE>" ++ goFmtMessage m ++ "</MESSAGE>").data := by
  refine ⟨{ m with text := voiceInfoText id m }, by simp [processMessage, h1, h3],
    by simp [voiceInfoText], ?_⟩
  refine ⟨("<MESSAGE>\x7b" ++ m.user ++ " " ++ m.chatID ++ " " ++ m.msgID ++ " ").data,
    (" " ++ m.voiceURL ++ " " ++ m.imageURL ++ " " ++ m.fileExt ++ "\x7d</MESSAGE>").data, ?_⟩
  simp [goFmtMessage, String.data_append]

/-- Witness for C6 at a concrete voice record. -/
theorem voice_annotation_structure_witness :
    ∃ m', (processMessage uploadOk mV).fst = Except.ok m' ∧
      m'.text =
        "<INFO>This message contains a voice file which you can find in the workspace at "
          ++ "id-.oga" ++ "<INFO>\n<MESSAGE>" ++ goFmtMessage mV ++ "</MESSAGE>" ∧
      mV.text.data <:+: ("<MESSAGE>" ++ goFmtMessage mV ++ "</MESSAGE>").data :=
  voice_annotation_structure uploadOk mV "id-.oga" (by decide) rfl rfl

/-- C7: when materialization of a drained record fails mid-drain —
whether through the voice or the image branch — the request is aborted
with status 500 and one of the two upload-failure texts; the failing
record is neither written to the response nor re-enqueued (only the
records drained before it were written), and the untouched tail stays
in the queue. -/
theorem poll_abort_on_failure (upload : String → String → Except String String)
    (pre : List Message) (bad : Message) (post : List Message)
    (hpre : ∀ m ∈ pre, ∃ m', (processMessage upload m).fst = Except.ok m')
    (hbad : ∃ ec, (processMessage upload bad).fst = Except.error ec) :
    (messageHandler upload (pre ++ bad :: post)).status = 500 ∧
    (messageHandler upload (pre ++ bad :: post)).remaining = post ∧
    ∃ recs e, recs.length = pre.length ∧
      (messageHandler upload (pre ++ bad :: post)).records = recs ∧
      (messageHandler upload (pre ++ bad :: post)).writes =
        recs.map jsonMarshalMessage ++ [e ++ "\n"] ∧
      (e = "Failed to upload voice file" ∨ e = "Failed to upload image file") := by
  obtain ⟨ec, hec⟩ := hbad
  obtain ⟨hc, he⟩ := processMessage_error_shape upload bad ec hec
  obtain ⟨recs, hlen, heq⟩ := messageHandler_append_ok upload pre (bad :: post) hpre
  have htail : messageHandler upload (bad :: post) =
      { writes := [ec.1 ++ "\n"], status := ec.2, records := [], remaining := post } := by
    rcases hp : processMessage upload bad with ⟨fst, snd⟩
    rw [hp] at hec
    simp only at hec
    subst hec
    rcases ec with ⟨e, c⟩
    simp [messageHandler, hp]
  rw [heq, htail]
  exact ⟨hc, rfl, recs, ec.1, hlen, by simp, by simp, he⟩

/-- Witness for C7: two concrete aborts, one failing through the voice
branch and one through the image branch, each after one successfully
drained record and with one record left behind in the queue. -/
theorem poll_abort_on_failure_witness :
    ((messageHandler uploadFail ([mA] ++ mV :: [mB])).status = 500 ∧
     (messageHandler uploadFail ([mA] ++ mV :: [mB])).remaining = [mB] ∧
     ∃ recs e, recs.length = ([mA] : List Message).length ∧
       (messageHandler uploadFail ([mA] ++ mV :: [mB])).records = recs ∧
       (messageHandler uploadFail ([mA] ++ mV :: [mB])).writes =
         recs.map jsonMarshalMessage ++ [e ++ "\n"] ∧
       (e = "Failed to upload voice file" ∨ e = "Failed to upload image file")) ∧
    ((messageHandler uploadFail ([mA] ++ mI :: [mB])).status = 500 ∧
     (messageHandler uploadFail ([mA] ++ mI :: [mB])).remaining = [mB] ∧
     ∃ recs e, recs.length = ([mA] : List Message).length ∧
       (messageHandler uploadFail ([mA] ++ mI :: [mB])).records = recs ∧
       (messageHandler uploadFail ([mA] ++ mI :: [mB])).writes =
         recs.map jsonMarshalMessage ++ [e ++ "\n"] ∧
       (e = "Failed to upload voice file" ∨ e = "Failed to upload image file")) :=
  ⟨poll_abort_on_failure uploadFail [mA] mV [mB]
     (fun m hm => by rcases List.mem_singleton.mp hm with rfl; exact ⟨mA, rfl⟩)
     ⟨("Failed to upload voice file", 500), rfl⟩,
   poll_abort_on_failure uploadFail [mA] mI [mB]
     (fun m hm => by rcases List.mem_singleton.mp hm with rfl; exact ⟨mA, rfl⟩)
     ⟨("Failed to upload image file", 500), rfl⟩⟩

/-- A send collaborator that always succeeds. -/
def botSendOk : SentMsg → Except String Unit := fun _ => .ok ()

/-- The spec example: `chatId` is not numeric. -/
def reqAbc : Message := { chatID := "abc", text := "hi" }

/-- A well-formed request with a reply-thread target. -/
def reqGood : Message := { chatID := "123", text := "hi", msgID := "5" }

/-- C8: the /send handler returns 400 with zero outbound calls when the
body does not parse, when `chatId` is not a numeric identifier, or when
a present non-empty `msgId` is not numeric; when everything parses it
attempts exactly one outbound send carrying the parsed reply target
(the Go zero value 0 when `msgId` was absent), with status 500 when the
platform send fails and 200 on success. -/
theorem send_handler_spec (botSend : SentMsg → Except String Unit) (req : Message) :
    sendHandler botSend none = (400, []) ∧
    (goParseInt64 req.chatID = none → sendHandler botSend (some req) = (400, [])) ∧
    (req.msgID ≠ "" → goParseInt64 req.msgID = none →
      sendHandler botSend (some req) = (400, [])) ∧
    (∀ cid mid, goParseInt64 req.chatID = some cid →
      ((req.msgID = "" ∧ mid = 0) ∨ (req.msgID ≠ "" ∧ goParseInt64 req.msgID = some mid)) →
      (sendHandler botSend (some req)).2 =
        [{ chatID := cid, text := req.text, replyToMessageID := mid }] ∧
      (sendHandler botSend (some req)).1 =
        (match botSend { chatID := cid, text := req.text, replyToMessageID := mid } with
         | .ok _ => 200
         | .error _ => 500)) := by
  refine ⟨rfl, ?_, ?_, ?_⟩
  · intro h
    simp [sendHandler, h]
  · intro h1 h2
    cases hc : goParseInt64 req.chatID with
    | none => simp [sendHandler, hc]
    | some cid => simp [sendHandler, hc, h1, h2]
  · intro cid mid hc hm
    rcases hm with ⟨he, rfl⟩ | ⟨hne, hp⟩
    · cases hb : botSend { chatID := cid, text := req.text, replyToMessageID := 0 } <;>
        simp [sendHandler, hc, he, hb]
    · cases hb : botSend { chatID := cid, text := req.text, replyToMessageID := mid } <;>
        simp [sendHandler, hc, hne, hp, hb]

/-- Witness for C8: the non-numeric `chatId` example yields 400 and no
outbound call; the well-formed request yields exactly one outbound call
carrying the reply target. -/
theorem send_handler_spec_witness :
    sendHandler botSendOk (some reqAbc) = (400, []) ∧
    (sendHandler botSendOk (some reqGood)).2 =
      [{ chatID := 123, text := "hi", replyToMessageID := 5 }] ∧
    (sendHandler botSendOk (some reqGood)).1 = 200 := by
  refine ⟨(send_handler_spec botSendOk reqAbc).2.1 (by decide), ?_, ?_⟩
  · exact ((send_handler_spec botSendOk reqGood).2.2.2 123 5 (by decide)
      (Or.inr ⟨by decide, by decide⟩)).1
  · exact ((send_handler_spec botSendOk reqGood).2.2.2 123 5 (by decide)
      (Or.inr ⟨by decide, by decide⟩)).2

/-- An allow-list admitting the witness sender. -/
def authCfgW : AuthConfig := { allowedUserIDs := [42], allowedUserNames := ["alice"] }

/-- The witness sender, present in both allow-sets. -/
def userW : TgUser := { id := 42, firstName := "A", lastName := "B", userName := "alice" }

/-- A file-resolution collaborator that always succeeds. -/
def getFileOk : String → Except String TgFile :=
  fun fid => .ok { filePath := "f/" ++ fid ++ ".jpg" }

/-- An authorized update whose message has empty text and no media. -/
def emptyTextUpdate : TgUpdate :=
  { message := some { chat := { id := 7 }, messageID := 3, text := "" },
    sentFrom := some userW }

/-- The record the listener builds from `emptyTextUpdate`. -/
def emptyTextRecord : Message :=
  { user := "A B (alice)", chatID := "7", msgID := "3", text := "" }

/-- C9 counterexample: the listener admits an event with empty text and
no media, enqueues a record whose text is empty, and that record leaves
the relay through the poll path with its text still empty — no text is
synthesized anywhere for it. -/
theorem empty_text_leaves_relay :
    listenerStep authCfgW "tok" getFileOk emptyTextUpdate = .enqueue emptyTextRecord ∧
    emptyTextRecord.text = "" ∧
    (messageHandler uploadOk [emptyTextRecord]).records.map Message.text = [""] := by
  exact ⟨rfl, rfl, rfl⟩

/-- C9 amended: only records carrying a media locator get non-empty
synthesized text, and only at drain time (successful materialization
rewrites the text to the annotation, which is never empty); a record
whose original text is empty and which carries no media leaves the
relay with empty text. -/
theorem media_records_drain_nonempty (upload : String → String → Except String String)
    (m : Message) (id : String)
    (h : (m.voiceURL ≠ "" ∧ upload m.voiceURL m.fileExt = Except.ok id) ∨
         (m.voiceURL = "" ∧ m.imageURL ≠ "" ∧ upload m.imageURL m.fileExt = Except.ok id)) :
    ∃ m', (processMessage upload m).fst = Except.ok m' ∧ m'.text ≠ "" := by
  rcases h with ⟨hv, hup⟩ | ⟨hv, hi, hup⟩
  · refine ⟨{ m with text := voiceInfoText id m }, by simp [processMessage, hv, hup], ?_⟩
    show voiceInfoText id m ≠ ""
    rw [voiceInfoText]
    apply append_ne_empty_of_left
    apply append_ne_empty_of_left
    apply append_ne_empty_of_left
    apply append_ne_empty_of_left
    decide
  · refine ⟨{ m with text := imageInfoText id m }, by simp [processMessage, hv, hi, hup], ?_⟩
    show imageInfoText id m ≠ ""
    rw [imageInfoText]
    apply append_ne_empty_of_left
    apply append_ne_empty_of_left
    apply append_ne_empty_of_left
    apply append_ne_empty_of_left
    decide

/-- Witness for C9 amended at a concrete voice record. -/
theorem media_records_drain_nonempty_witness :
    ∃ m', (processMessage uploadOk mV).fst = Except.ok m' ∧ m'.text ≠ "" :=
  media_records_drain_nonempty uploadOk mV "id-.oga" (Or.inl ⟨by decide, rfl⟩)

/-- The record the listener builds for an authorized update whose
message carries both a voice and a (non-empty) photo payload, once both
files resolve: both links stored, the photo extension overwriting the
voice extension. -/
def listenerRecord (token : String) (u : TgUser) (msg : TgInboundMessage)
    (fv fp : TgFile) : Message :=
  { chatID := toString msg.chat.id, msgID := toString msg.messageID,
    text := msg.text,
    user := u.firstName ++ " " ++ u.lastName ++ " (" ++ u.userName ++ ")",
    voiceURL := fileLink token fv, imageURL := fileLink token fp,
    fileExt := filepathExt fp.filePath }

/-- C10: for an authorized event carrying both a voice and a photo
payload, the listener stores both links and the photo's extension
(overwriting the voice's); at drain time only the voice attachment is
materialized — the single upload call fetches the voice link with the
photo's extension, the image link is never fetched, and the annotation
describes a voice file. -/
theorem voice_priority_over_image (cfg : AuthConfig) (token : String)
    (getFile : String → Except String TgFile)
    (upload : String → String → Except String String)
    (u : TgUser) (msg : TgInboundMessage) (v : TgVoice) (p : TgPhotoSize)
    (ps : List TgPhotoSize) (fv fp : TgFile) (id : String)
    (hauth : isAuthorized cfg (some u) = true)
    (hvoice : msg.voice = some v) (hphoto : msg.photo = some (p :: ps))
    (hfv : getFile v.fileID = Except.ok fv) (hfp : getFile p.fileID = Except.ok fp)
    (hup : upload (fileLink token fv) (filepathExt fp.filePath) = Except.ok id) :
    ∃ m, listenerStep cfg token getFile { message := some msg, sentFrom := some u } =
        .enqueue m ∧
      m.voiceURL = fileLink token fv ∧
      m.imageURL = fileLink token fp ∧
      m.fileExt = filepathExt fp.filePath ∧
      (processMessage upload m).snd = [(fileLink token fv, filepathExt fp.filePath)] ∧
      ∃ m', (processMessage upload m).fst = Except.ok m' ∧ m'.text = voiceInfoText id m := by
  have hlink : fileLink token fv ≠ "" := by
    rw [fileLink]
    apply append_ne_empty_of_left
    apply append_ne_empty_of_left
    apply append_ne_empty_of_left
    decide
  refine ⟨listenerRecord token u msg fv fp, ?_, rfl, rfl, rfl, ?_, ?_⟩
  · simp [listenerStep, hauth, hvoice, hfv, listenerPhotoStep, hphoto, hfp, listenerRecord]
  · simp [processMessage, listenerRecord, hlink, hup]
  · refine ⟨{ listenerRecord token u msg fv fp with text := voiceInfoText id (listenerRecord token u msg fv fp) }, ?_, rfl⟩
    simp [processMessage, listenerRecord, hlink, hup]

/-- An update carrying both a voice and a photo payload, for the C10
witness. -/
def bothMediaMsg : TgInboundMessage :=
  { chat := { id := 7 }, messageID := 3, text := "hi",
    voice := some { fileID := "V1" }, photo := some [{ fileID := "P1" }, { fileID := "P2" }] }

/-- Witness for C10 at a concrete two-media update. -/
theorem voice_priority_over_image_witness :
    ∃ m, listenerStep authCfgW "tok" getFileOk
        { message := some bothMediaMsg, sentFrom := some userW } = .enqueue m ∧
      m.voiceURL = fileLink "tok" { filePath := "f/V1.jpg" } ∧
      m.imageURL = fileLink "tok" { filePath := "f/P1.jpg" } ∧
      m.fileExt = filepathExt "f/P1.jpg" ∧
      (processMessage uploadOk m).snd =
        [(fileLink "tok" { filePath := "f/V1.jpg" }, filepathExt "f/P1.jpg")] ∧
      ∃ m', (processMessage uploadOk m).fst = Except.ok m' ∧
        m'.text = voiceInfoText "id-.jpg" m :=
  voice_priority_over_image authCfgW "tok" getFileOk uploadOk userW bothMediaMsg
    { fileID := "V1" } { fileID := "P1" } [{ fileID := "P2" }]
    { filePath := "f/V1.jpg" } { filePath := "f/P1.jpg" } "id-.jpg"
    (by decide) rfl rfl rfl rfl rfl

end ObotTelegram
